import Mathlib

/-!
Verification development for the BEM potential-field driver of the
trapsim-notebooks repository: `bemsolver/compute.cpp` (grid-file parsing
and the per-electrode driver loop) and `simulate.cpp` / `simulate.h`
(`compute_potential`, the grid sampler).

Embedding conventions:
* a C++ `std::string` line is a `List Char`; a text file is a `List Line`
  (what successive `std::getline` calls yield);
* `double` is modelled as `ℚ` (the claims under study are structural, not
  about floating-point rounding);
* a thrown C++ exception is `Except.error`;
* the external BemSolver library (layout import, `D3world`, `calc_slow`)
  is opaque to the repository; it enters the model as explicit parameters
  and, for the solved-world cache, as a small state machine modelled from
  the spec where marked.
-/

namespace TrapSim

attribute [local semireducible] Rat.mul Rat.add Rat.sub Rat.inv

/-- One text line, as the `std::string` contents produced by `getline`. -/
abbrev Line := List Char

/-- The horizontal-whitespace character set `" \t"` used by
`find_first_not_of` / `find_last_not_of` in `parse_param`. -/
def isHWs (c : Char) : Bool := c == ' ' || c == '\t'

/-- Whitespace skipped by stream extraction `operator>>`
(C locale `isspace`). -/
def isStreamWs (c : Char) : Bool :=
  c == ' ' || c == '\t' || c == '\n' || c == '\r' || c == '\x0b' || c == '\x0c'

/-- `std::string::find`-style search: index of the first character
satisfying `p`, `none` playing the role of `npos`. -/
def cpp_find (p : Char → Bool) : Line → Option Nat
  | [] => none
  | c :: t => if p c then some 0 else (cpp_find p t).map (· + 1)

/-- `line.find_first_not_of(" \t")`. -/
def find_first_not_of (l : Line) : Option Nat :=
  cpp_find (fun c => !(isHWs c)) l

/-- `line.find_last_not_of(" \t")`: index of the last character outside
the set, computed here through the reversed list. -/
def find_last_not_of (l : Line) : Option Nat :=
  (cpp_find (fun c => !(isHWs c)) l.reverse).map (fun r => l.length - 1 - r)

/-- Value of a digit string (most significant first). -/
def natOfDigits (ds : List Char) : Nat :=
  ds.foldl (fun a c => a * 10 + (c.toNat - 48)) 0

/-- `istream >> (int&)`: skip stream whitespace, optional sign, then at
least one digit; extraction fails (`none`) when no digit follows. -/
def extractInt (s : Line) : Option Int :=
  let s1 := s.dropWhile isStreamWs
  let sign : Int := match s1 with | '-' :: _ => -1 | _ => 1
  let s2 := match s1 with | '-' :: t => t | '+' :: t => t | _ => s1
  let ds := s2.takeWhile Char.isDigit
  if ds = [] then none else some (sign * (natOfDigits ds : Nat))

/-- Exponent part of a C++ floating-point token (after the `e`/`E`):
optional sign then digits; an incomplete exponent contributes 0, matching
`strtod` which then stops before the `e`. -/
def expOf (t : Line) : Int :=
  let sg : Int := match t with | '-' :: _ => -1 | _ => 1
  let t2 := match t with | '-' :: u => u | '+' :: u => u | _ => t
  let ds := t2.takeWhile Char.isDigit
  if ds = [] then 0 else sg * (natOfDigits ds : Nat)

/-- `istream >> (double&)`: skip stream whitespace, optional sign, integer
digits, optional fraction, optional exponent; fails when neither integer
nor fraction digits are present.  The denoted value is represented
exactly (`ℚ`), built with `mkRat` so that it evaluates by kernel
reduction. -/
def extractRat (s : Line) : Option Rat :=
  let s1 := s.dropWhile isStreamWs
  let neg : Bool := match s1 with | '-' :: _ => true | _ => false
  let s2 := match s1 with | '-' :: t => t | '+' :: t => t | _ => s1
  let ip := s2.takeWhile Char.isDigit
  let s3 := s2.dropWhile Char.isDigit
  let fp := match s3 with | '.' :: t => t.takeWhile Char.isDigit | _ => []
  let s4 := match s3 with | '.' :: t => t.dropWhile Char.isDigit | _ => s3
  if ip = [] ∧ fp = [] then none
  else
    let mant : Rat :=
      mkRat (natOfDigits ip * 10 ^ fp.length + natOfDigits fp : Nat) (10 ^ fp.length)
    let e : Int := match s4 with
      | 'e' :: t => expOf t
      | 'E' :: t => expOf t
      | _ => 0
    let scaled : Rat :=
      if 0 ≤ e then mant * mkRat ((10 ^ e.toNat : Nat) : Int) 1
      else mant * mkRat 1 (10 ^ (-e).toNat)
    some (if neg then -scaled else scaled)

/-- The C++ exceptions the translated code can throw. -/
inductive CppExn
  | outOfRange
deriving DecidableEq

instance {ε α : Type} [DecidableEq ε] [DecidableEq α] : DecidableEq (Except ε α) := fun x y =>
  match x, y with
  | .error a, .error b =>
      if h : a = b then .isTrue (by rw [h]) else .isFalse (fun hh => h (Except.error.inj hh))
  | .error _, .ok _ => .isFalse (fun hh => Except.noConfusion hh)
  | .ok _, .error _ => .isFalse (fun hh => Except.noConfusion hh)
  | .ok a, .ok b =>
      if h : a = b then .isTrue (by rw [h]) else .isFalse (fun hh => h (Except.ok.inj hh))

/-- `std::getline` on the remaining lines of a file: on an exhausted or
failed stream the string is left empty. -/
def getline (lines : List Line) : Line :=
  match lines with
  | [] => []
  | l :: _ => l

/-- `parse_param<T>` from `compute.cpp`, lines 11–31, over the remaining
file lines.  Faithful points: `idx = line.find(':') + 1` wraps to `0`
when there is no colon (`npos + 1` on `size_t`); the trim bounds `begin`
/ `end` are computed over the whole `line`, not over `rhs`;
`rhs.substr(begin, end - begin + 1)` throws `std::out_of_range` when
`begin` exceeds `rhs.size()` (in particular when `begin` is `npos`);
on extraction failure `val` is value-initialised to the C++11 default
(`0`), with no error reported. -/
def parse_param {α : Type} (ext : Line → Option α) (dflt : α) (lines : List Line) :
    Except CppExn (α × List Line) :=
  let line := getline lines
  let idx : Nat :=
    match cpp_find (fun c => c == ':') line with
    | some p => p + 1
    | none => 0
  let rhs := line.drop idx
  match find_first_not_of line, find_last_not_of line with
  | some b, some e =>
      if rhs.length < b then .error CppExn.outOfRange
      else .ok ((ext ((rhs.drop b).take (e - b + 1))).getD dflt, lines.tail)
  | _, _ => .error CppExn.outOfRange

/-- `parse_param<int>`. -/
def parse_param_int : List Line → Except CppExn (Int × List Line) :=
  parse_param extractInt 0

/-- `parse_param<double>`. -/
def parse_param_double : List Line → Except CppExn (Rat × List Line) :=
  parse_param extractRat 0

/-- `grid_info` from `simulate.h` (field order as declared there). -/
structure grid_info where
  num_electrodes : Int
  dimx : Int
  dimy : Int
  dimz : Int
  startx : Rat
  endx : Rat
  starty : Rat
  endy : Rat
  startz : Rat
  endz : Rat
deriving DecidableEq

/-- Exception-propagating sequencing of one `parse_param` call with the
rest of `read_grid_info`. -/
def pbind {α β : Type} (x : Except CppExn (α × List Line))
    (f : α → List Line → Except CppExn β) : Except CppExn β :=
  match x with
  | .error e => .error e
  | .ok (a, r) => f a r

/-- `read_grid_info` from `compute.cpp`, lines 34–57: one discarded
header line, then ten positional `parse_param` calls in the order
`num_electrodes, dimx, dimy, dimz, startx, starty, startz, endx, endy,
endz`.  A path that does not exist or is unreadable leaves the stream
failed from the start, so every `getline` yields the empty string: such a
file is the empty line list. -/
def read_grid_info (file : List Line) : Except CppExn grid_info :=
  pbind (parse_param_int file.tail) fun ne r1 =>
  pbind (parse_param_int r1) fun dx r2 =>
  pbind (parse_param_int r2) fun dy r3 =>
  pbind (parse_param_int r3) fun dz r4 =>
  pbind (parse_param_double r4) fun sx r5 =>
  pbind (parse_param_double r5) fun sy r6 =>
  pbind (parse_param_double r6) fun sz r7 =>
  pbind (parse_param_double r7) fun ex_ r8 =>
  pbind (parse_param_double r8) fun ey r9 =>
  pbind (parse_param_double r9) fun ez _ =>
  .ok { num_electrodes := ne, dimx := dx, dimy := dy, dimz := dz,
        startx := sx, endx := ex_, starty := sy, endy := ey,
        startz := sz, endz := ez }

/-! ## The sampler (`simulate.cpp`) and the driver loop (`compute.cpp`) -/

/-- Modelled from the spec: the `SolvedWorldCache` persisted by the
external solver (`D3world` with a save-file name) is opaque state; we
model it as an abstract token.  The solver library itself is not part of
this repository. -/
abbrev SolvedWorld := Nat

/-- Observable solver activity of one `D3world` build/refine/solve
sequence: either a fresh boundary-element solve or a load of the
persisted solved-world cache. -/
inductive SolveEvent
  | freshSolve
  | cacheLoad
deriving DecidableEq

/-- An electrode name in the imported layout: the integer-string
electrodes `"0" .. "2n+1"` or the literal `"GROUND"`. -/
inductive Electrode
  | idx (i : Int)
  | ground
deriving DecidableEq

/-- Modelled from the spec: `D3world` is constructed with the cache path
`gen.cache/savedworld.data` and then refined and solved; per spec §3 the
cache is created by the first (priming) solve and only read afterwards.
`fresh` is the solved-world state the solver would produce for this
geometry; electrodes still carry their all-zero default voltages at this
point, since `compute_potential` sets voltages only after `solve()`. -/
def primeStep (cache : Option SolvedWorld) (fresh : SolvedWorld) :
    Option SolvedWorld × List SolveEvent :=
  match cache with
  | some c => (some c, [SolveEvent.cacheLoad])
  | none => (some fresh, [SolveEvent.freshSolve])

/-- The electrode activation set built by `compute` for sampling index
`i` (`compute.cpp` lines 71–75): `insert(i)`, and `insert(num_electrodes
+ i)` only when `i > 0`. -/
def activationSet (num_electrodes i : Int) : Finset Int :=
  if 0 < i then insert i {num_electrodes + i} else {i}

/-- `const int total_electrodes = 2 * info.num_electrodes + 2` as the
loop bound of the C++ `for (int i = 0; i < total_electrodes; i++)`:
a non-positive bound yields zero iterations. -/
def total_electrodes (info : grid_info) : Nat :=
  (2 * info.num_electrodes + 2).toNat

/-- The `SetVoltage` calls performed before grid evaluation
(`simulate.cpp` lines 69–79): every electrode index in
`[0, total_electrodes)` is set to 1 if it is in the activation set and
to 0 otherwise, then `GROUND` is set to 0. -/
def voltageAssignments (electrodes : Finset Int) (info : grid_info) :
    List (Electrode × Rat) :=
  ((List.range (total_electrodes info)).map fun (i : Nat) =>
    (Electrode.idx (i : Int), if (i : Int) ∈ electrodes then (1 : Rat) else 0))
  ++ [(Electrode.ground, 0)]

/-- Per-axis step `(end - start) / (dim - 1)` (`simulate.cpp` lines 63–65). -/
def xstepOf (info : grid_info) : Rat := (info.endx - info.startx) / ((info.dimx : Rat) - 1)

/-- Per-axis step for `y`. -/
def ystepOf (info : grid_info) : Rat := (info.endy - info.starty) / ((info.dimy : Rat) - 1)

/-- Per-axis step for `z`. -/
def zstepOf (info : grid_info) : Rat := (info.endz - info.startz) / ((info.dimz : Rat) - 1)

/-- The values streamed to the output file by the triple loop of
`compute_potential` (`simulate.cpp` lines 84–95): `x` outermost, then
`y`, `z` innermost, one `calc_slow` evaluation per grid point.  `phi`
stands for the solved world's point-potential function. -/
def fieldLines (info : grid_info) (phi : Rat → Rat → Rat → Rat) : List Rat :=
  (List.range info.dimx.toNat).flatMap fun (i : Nat) =>
    (List.range info.dimy.toNat).flatMap fun (j : Nat) =>
      (List.range info.dimz.toNat).map fun (k : Nat) =>
        phi (info.startx + (i : Rat) * xstepOf info)
            (info.starty + (j : Rat) * ystepOf info)
            (info.startz + (k : Rat) * zstepOf info)

/-- Observable outcome of one `compute_potential` call. -/
structure PotentialResult where
  cache : Option SolvedWorld
  events : List SolveEvent
  assignments : List (Electrode × Rat)
  written : Option (String × List Rat)
deriving DecidableEq

/-- `compute_potential` from `simulate.cpp`: import the layout (early
`return` on failure, before any solver work), build/refine/solve the
world against the cache, `return` after the solve when the activation
set is empty (priming), otherwise apply the voltage configuration and
stream the sampled grid to `outfile`.  `importOk` is the result of the
external `D3ImportedElectrodes::Import`, `fresh` the solved world a
fresh solve would produce, `phi` the point-potential function of the
solved world. -/
def compute_potential (importOk : Bool) (fresh : SolvedWorld)
    (phi : Rat → Rat → Rat → Rat) (cache : Option SolvedWorld)
    (electrodes : Finset Int) (info : grid_info) (outfile : Option String) :
    PotentialResult :=
  if importOk = false then
    { cache := cache, events := [], assignments := [], written := none }
  else
    let ce := primeStep cache fresh
    if electrodes = ∅ then
      { cache := ce.1, events := ce.2, assignments := [], written := none }
    else
      { cache := ce.1, events := ce.2,
        assignments := voltageAssignments electrodes info,
        written := outfile.map fun f => (f, fieldLines info phi) }

/-- Observable outcome of one `compute(start, stop)` invocation. -/
structure ComputeResult where
  cache : Option SolvedWorld
  events : List SolveEvent
  outputs : List (String × List Rat)
  passes : List Int
deriving DecidableEq

/-- The output path `FIELD_PREFIX << i << FIELD_SUFFIX`, i.e.
`field<i>.txt` (`compute.cpp` lines 6–7 and 77–79). -/
def outfileName (i : Int) : String := "field" ++ toString i ++ ".txt"

/-- The indices visited by `for (int i = start; i < stop; i++)`. -/
def sampleIndices (start stop : Int) : List Int :=
  (List.range (stop - start).toNat).map fun (k : Nat) => start + (k : Int)

/-- One iteration of the sampling loop of `compute` (`compute.cpp`
lines 69–83): build the activation set for `i`, derive the output name,
call `compute_potential`, and accumulate its observable effects. -/
def samplePass (importOk : Bool) (fresh : SolvedWorld)
    (phi : Rat → Rat → Rat → Rat) (info : grid_info)
    (acc : ComputeResult) (i : Int) : ComputeResult :=
  let r := compute_potential importOk fresh phi acc.cache
    (activationSet info.num_electrodes i) info (some (outfileName i))
  { cache := r.cache,
    events := acc.events ++ r.events,
    outputs := acc.outputs ++ (match r.written with | some w => [w] | none => []),
    passes := acc.passes ++ [i] }

/-- `compute(start, stop)` from `compute.cpp` lines 59–84: read
`grid.txt` (an unhandled parse exception propagates), then either the
priming branch (`start == stop`: empty activation set, `NULL` outfile)
or the sampling loop over `[start, stop)`. -/
def compute (importOk : Bool) (fresh : SolvedWorld)
    (phi : Rat → Rat → Rat → Rat) (gridFile : List Line)
    (cache0 : Option SolvedWorld) (start stop : Int) :
    Except CppExn ComputeResult :=
  match read_grid_info gridFile with
  | .error e => .error e
  | .ok info =>
    if start = stop then
      let r := compute_potential importOk fresh phi cache0 ∅ info none
      .ok { cache := r.cache, events := r.events,
            outputs := (match r.written with | some w => [w] | none => []),
            passes := [] }
    else
      .ok ((sampleIndices start stop).foldl (samplePass importOk fresh phi info)
        { cache := cache0, events := [], outputs := [], passes := [] })

/-! ## Concrete instances used by witnesses and counterexamples -/

/-- The example grid file of spec §8 with `num_electrodes = 1`. -/
def exGridFile : List Line :=
  ["---", "num_electrodes: 1", "dimx: 2", "dimy: 2", "dimz: 2",
   "startx: 0", "starty: 0", "startz: 0", "endx: 1", "endy: 1", "endz: 1"].map
    String.toList

/-- The `grid_info` described by `exGridFile`. -/
def exInfo : grid_info :=
  { num_electrodes := 1, dimx := 2, dimy := 2, dimz := 2,
    startx := 0, endx := 1, starty := 0, endy := 1, startz := 0, endz := 1 }

/-- A concrete point-potential function for closed instances. -/
def phi0 : Rat → Rat → Rat → Rat := fun _ _ _ => 0

/-- The 11-line file `exGridFile` with its last line missing. -/
def exGridFile10 : List Line := exGridFile.take 10

/-- A grid file whose value lines carry no colon at all. -/
def exGridFileNoColon : List Line :=
  ["---", "5", "2", "2", "2", "0", "0", "0", "1", "1", "1"].map String.toList

/-- A value line whose label is preceded by horizontal whitespace. -/
def exLeadingWsLine : Line := "   x: 5".toList

/-! ## Helper lemmas about the parser -/

theorem cpp_find_eq_none {p : Char → Bool} {l : Line}
    (h : ∀ c ∈ l, p c = false) : cpp_find p l = none := by
  induction l with
  | nil => rfl
  | cons c t ih =>
      simp [cpp_find, h c (List.mem_cons_self c t),
        ih fun d hd => h d (List.mem_cons_of_mem _ hd)]

theorem pbind_ok {α β : Type} {x : Except CppExn (α × List Line)}
    {f : α → List Line → Except CppExn β} {b : β}
    (h : pbind x f = .ok b) : ∃ a r, x = .ok (a, r) ∧ f a r = .ok b := by
  cases x with
  | error e => simp [pbind] at h
  | ok p =>
      obtain ⟨a, r⟩ := p
      exact ⟨a, r, rfl, by simpa [pbind] using h⟩

theorem parse_param_ok_length {α : Type} {ext : Line → Option α} {dflt : α}
    {ls : List Line} {v : α} {rest : List Line}
    (h : parse_param ext dflt ls = .ok (v, rest)) :
    ls.length = rest.length + 1 := by
  cases ls with
  | nil =>
      exact absurd h (by simp [parse_param, getline, find_first_not_of, cpp_find])
  | cons l t =>
      have hrest : rest = t := by
        simp only [parse_param] at h
        split at h
        · split at h
          · exact absurd h (by simp)
          · simpa using (Prod.mk.injEq .. ▸ (Except.ok.inj h)).2.symm
        · exact absurd h (by simp)
      simp [hrest]

theorem read_grid_info_ok_length {file : List Line} {info : grid_info}
    (h : read_grid_info file = .ok info) : 11 ≤ file.length := by
  simp only [read_grid_info] at h
  obtain ⟨ne, r1, hp1, h⟩ := pbind_ok h
  obtain ⟨dx, r2, hp2, h⟩ := pbind_ok h
  obtain ⟨dy, r3, hp3, h⟩ := pbind_ok h
  obtain ⟨dz, r4, hp4, h⟩ := pbind_ok h
  obtain ⟨sx, r5, hp5, h⟩ := pbind_ok h
  obtain ⟨sy, r6, hp6, h⟩ := pbind_ok h
  obtain ⟨sz, r7, hp7, h⟩ := pbind_ok h
  obtain ⟨ex0, r8, hp8, h⟩ := pbind_ok h
  obtain ⟨ey, r9, hp9, h⟩ := pbind_ok h
  obtain ⟨ez, r10, hp10, h⟩ := pbind_ok h
  have l1 := parse_param_ok_length hp1
  have l2 := parse_param_ok_length hp2
  have l3 := parse_param_ok_length hp3
  have l4 := parse_param_ok_length hp4
  have l5 := parse_param_ok_length hp5
  have l6 := parse_param_ok_length hp6
  have l7 := parse_param_ok_length hp7
  have l8 := parse_param_ok_length hp8
  have l9 := parse_param_ok_length hp9
  have l10 := parse_param_ok_length hp10
  have ht : file.tail.length = file.length - 1 := by
    cases file <;> simp
  omega

/-- A value line in the shape the loader handles cleanly: a nonempty
label with no colon, starting with a non-whitespace character, then the
first colon, then the payload, whose last character is not horizontal
whitespace. -/
def cleanValueLine (line payload : Line) : Prop :=
  ∃ lab : Line, line = lab ++ ':' :: payload ∧
    (∀ c ∈ lab, (c == ':') = false) ∧
    (∃ c t, lab = c :: t ∧ isHWs c = false) ∧
    (∃ c t, payload.reverse = c :: t ∧ isHWs c = false)

theorem cpp_find_append_cons (p : Char → Bool) (l1 : Line) (a : Char) (l2 : Line)
    (h1 : ∀ c ∈ l1, p c = false) (h2 : p a = true) :
    cpp_find p (l1 ++ a :: l2) = some l1.length := by
  induction l1 with
  | nil => simp [cpp_find, h2]
  | cons c t ih =>
      simp only [List.cons_append, cpp_find, h1 c (List.mem_cons_self c t),
        Bool.false_eq_true, if_false, List.append_eq]
      rw [ih fun d hd => h1 d (List.mem_cons_of_mem _ hd)]
      simp

theorem parse_param_clean {α : Type} (ext : Line → Option α) (dflt : α)
    (line payload : Line) (t : List Line) (h : cleanValueLine line payload) :
    parse_param ext dflt (line :: t) = .ok ((ext payload).getD dflt, t) := by
  obtain ⟨lab, hline, hnc, ⟨c0, t0, hlab, hc0⟩, ⟨c1, t1, hpay, hc1⟩⟩ := h
  have hcolon : cpp_find (fun c => c == ':') line = some lab.length := by
    rw [hline]
    exact cpp_find_append_cons _ lab ':' payload hnc (by simp)
  have hfirst : find_first_not_of line = some 0 := by
    unfold find_first_not_of
    rw [hline, hlab]
    simp [cpp_find, hc0]
  have hlast : find_last_not_of line = some (line.length - 1) := by
    unfold find_last_not_of
    have hrev : line.reverse = c1 :: (t1 ++ ':' :: lab.reverse) := by
      rw [hline]
      simp [List.reverse_append, hpay]
    rw [hrev]
    simp [cpp_find, hc1, hrev.symm]
  have hlen1 : 1 ≤ line.length := by
    rw [hline, hlab]
    simp
  have hrhs : line.drop (lab.length + 1) = payload := by
    rw [hline]
    have hsplit : lab ++ ':' :: payload = (lab ++ [':']) ++ payload := by simp
    rw [hsplit]
    have hlen : (lab ++ [':']).length = lab.length + 1 := by simp
    rw [← hlen, List.drop_left]
  have hpaylen : payload.length ≤ line.length := by
    rw [hline]
    simp
    omega
  simp only [parse_param, getline, hcolon, hfirst, hlast, List.tail_cons]
  rw [hrhs]
  rw [if_neg (by omega)]
  rw [List.drop_zero]
  have htake : line.length - 1 - 0 + 1 = line.length := by omega
  rw [htake]
  rw [List.take_of_length_le hpaylen]

/-! ## Claims C3, C8, C9 -/

/-- Claim C3, counterexample: a grid file whose value lines lack a colon
is not rejected at all — `read_grid_info` returns a full `grid_info`
built from the whole lines (there is no `MalformedGridFile` behaviour in
the code). -/
theorem C3_counterexample :
    read_grid_info exGridFileNoColon =
      Except.ok { num_electrodes := 5, dimx := 2, dimy := 2, dimz := 2,
                  startx := 0, endx := 1, starty := 0, endy := 1,
                  startz := 0, endz := 1 } := by decide

/-- Claim C3, amended: the loader performs no validation and returns no
structured errors.  A file with fewer than 11 readable lines — which
includes a path that does not exist or is unreadable, whose failed
stream yields only empty lines — makes some `parse_param` call see an
all-whitespace line and throw `std::out_of_range`; a value line lacking
a colon is parsed as if the whole line were the payload; and a numeric
field whose payload fails extraction is not rejected either:
`parse_param` returns normally and the field holds the extraction's
value-initialised default (0, per the modelled C++11 semantics of a
failed `stm >> val`). -/
theorem C3_theorem :
    (∀ file : List Line, file.length < 11 →
      read_grid_info file = Except.error CppExn.outOfRange) ∧
    (∀ (line payload : Line) (t : List Line), cleanValueLine line payload →
      extractInt payload = none →
      parse_param extractInt 0 (line :: t) = .ok (0, t)) := by
  constructor
  · intro file h
    cases hr : read_grid_info file with
    | ok info => exact absurd (read_grid_info_ok_length hr) (by omega)
    | error e => cases e; rfl
  · intro line payload t hclean hext
    rw [parse_param_clean extractInt 0 line payload t hclean, hext]
    rfl

/-- Claim C3, witness: a nonexistent file reads as the empty line list
and the loader throws; and the non-numeric value line `"x: abc"` is not
rejected — extraction fails silently and the field becomes 0. -/
theorem C3_witness :
    read_grid_info [] = Except.error CppExn.outOfRange ∧
    parse_param extractInt 0 ["x: abc".toList] = .ok (0, []) :=
  ⟨C3_theorem.1 [] (by decide),
   C3_theorem.2 "x: abc".toList " abc".toList []
     ⟨['x'], by decide, by decide, ⟨'x', [], by decide, by decide⟩,
       ⟨'c', ['b', 'a', ' '], by decide, by decide⟩⟩
     (by decide)⟩

/-- Claim C8 (code bug, evaluated): on a value line whose label is
preceded by whitespace, the code throws `std::out_of_range` — the trim
bounds are computed over the whole line, not over the substring after
the colon — while the claimed behaviour (trim the payload, then parse)
would extract the value 5. -/
theorem C8_theorem :
    parse_param extractInt 0 [exLeadingWsLine] = Except.error CppExn.outOfRange ∧
    extractInt ['5'] = some 5 := by decide

/-- Claim C9: `parse_param` on a line with no non-whitespace character
(in particular the empty line a failed `getline` leaves behind) computes
`npos` trim bounds and throws `std::out_of_range`. -/
theorem C9_theorem {α : Type} (ext : Line → Option α) (dflt : α)
    (lines : List Line) (h : ∀ c ∈ getline lines, isHWs c = true) :
    parse_param ext dflt lines = Except.error CppExn.outOfRange := by
  have hf : find_first_not_of (getline lines) = none :=
    cpp_find_eq_none fun c hc => by simp [h c hc]
  have hl : find_last_not_of (getline lines) = none := by
    unfold find_last_not_of
    rw [cpp_find_eq_none fun c hc => by simp [h c (List.mem_reverse.mp hc)]]
    rfl
  simp only [parse_param, hf, hl]

/-- Claim C9, witness: the empty stream of a missing or exhausted file
produces the empty line, and `parse_param<int>` throws on it. -/
theorem C9_witness :
    parse_param extractInt (0 : Int) [] = Except.error CppExn.outOfRange :=
  C9_theorem extractInt 0 [] (by intro c hc; simp [getline] at hc)

/-! ## Helper lemmas about the driver -/

theorem compute_potential_cache_some (importOk : Bool) (fresh : SolvedWorld)
    (phi : Rat → Rat → Rat → Rat) (c : SolvedWorld) (A : Finset Int)
    (info : grid_info) (o : Option String) :
    (compute_potential importOk fresh phi (some c) A info o).cache = some c ∧
    SolveEvent.freshSolve ∉ (compute_potential importOk fresh phi (some c) A info o).events := by
  cases importOk <;> by_cases hA : A = ∅ <;>
    simp [compute_potential, primeStep, hA]

theorem foldl_samplePass_cache_inv (importOk : Bool) (fresh : SolvedWorld)
    (phi : Rat → Rat → Rat → Rat) (info : grid_info) (l : List Int)
    (acc : ComputeResult) (c : SolvedWorld)
    (hc : acc.cache = some c) (he : SolveEvent.freshSolve ∉ acc.events) :
    (l.foldl (samplePass importOk fresh phi info) acc).cache = some c ∧
    SolveEvent.freshSolve ∉ (l.foldl (samplePass importOk fresh phi info) acc).events := by
  induction l generalizing acc with
  | nil => exact ⟨hc, he⟩
  | cons i t ih =>
      have h2 := compute_potential_cache_some importOk fresh phi c
        (activationSet info.num_electrodes i) info (some (outfileName i))
      rw [List.foldl_cons]
      apply ih
      · simpa [samplePass, hc] using h2.1
      · simp [samplePass, hc, List.mem_append, not_or]
        exact ⟨he, h2.2⟩

theorem compute_read_ok (importOk : Bool) (fresh : SolvedWorld)
    (phi : Rat → Rat → Rat → Rat) (gridFile : List Line)
    (cache0 : Option SolvedWorld) (start stop : Int) (info : grid_info)
    (hread : read_grid_info gridFile = .ok info) :
    compute importOk fresh phi gridFile cache0 start stop =
      if start = stop then
        .ok { cache := (compute_potential importOk fresh phi cache0 ∅ info none).cache,
              events := (compute_potential importOk fresh phi cache0 ∅ info none).events,
              outputs :=
                (match (compute_potential importOk fresh phi cache0 ∅ info none).written with
                 | some w => [w] | none => []),
              passes := [] }
      else
        .ok ((sampleIndices start stop).foldl (samplePass importOk fresh phi info)
          { cache := cache0, events := [], outputs := [], passes := [] }) := by
  rw [compute, hread]

theorem foldl_samplePass_importFail (fresh : SolvedWorld)
    (phi : Rat → Rat → Rat → Rat) (info : grid_info) (l : List Int)
    (acc : ComputeResult) :
    l.foldl (samplePass false fresh phi info) acc =
      { cache := acc.cache, events := acc.events, outputs := acc.outputs,
        passes := acc.passes ++ l } := by
  induction l generalizing acc with
  | nil => simp
  | cons i t ih => simp [List.foldl_cons, samplePass, compute_potential, ih]

/-! ## Claims C2, C6, C7, C10 -/

/-- Claim C2: whenever `start == stop` (whatever the common value), and
the grid file reads successfully and the layout import succeeds,
`compute` takes the priming branch: the activation set passed on is
empty, the world — whose electrodes still carry their all-zero default
voltages — is solved fresh and the solved-world cache is persisted
(`cache = some fresh`, exactly one `freshSolve` event), no grid point is
sampled and no field output file is produced. -/
theorem C2_theorem (fresh : SolvedWorld) (phi : Rat → Rat → Rat → Rat)
    (gridFile : List Line) (info : grid_info) (start stop : Int)
    (hss : start = stop) (hread : read_grid_info gridFile = .ok info) :
    compute true fresh phi gridFile none start stop =
      .ok { cache := some fresh, events := [SolveEvent.freshSolve],
            outputs := [], passes := [] } := by
  subst hss
  rw [compute_read_ok true fresh phi gridFile none start start info hread]
  simp [compute_potential, primeStep]

/-- Claim C2, witness: `run(2, 2)` on the example grid file primes the
cache and produces no field file. -/
theorem C2_witness :
    compute true 0 phi0 exGridFile none 2 2 =
      .ok { cache := some 0, events := [SolveEvent.freshSolve],
            outputs := [], passes := [] } :=
  C2_theorem 0 phi0 exGridFile exInfo 2 2 rfl (by decide)

/-- Claim C6 (cache behaviour modelled from the spec): the solved-world
cache is created exactly once, by the priming call (starting from no
cache it becomes `some fresh` with a single fresh solve); any later call
that starts with an existing cache — in particular every sampling call —
only loads it: the cache value is unchanged and no fresh solve occurs. -/
theorem C6_theorem :
    (∀ (fresh : SolvedWorld) (phi : Rat → Rat → Rat → Rat)
        (gridFile : List Line) (s : Int) (r : ComputeResult),
        compute true fresh phi gridFile none s s = .ok r →
        r.cache = some fresh ∧ r.events = [SolveEvent.freshSolve]) ∧
    (∀ (importOk : Bool) (fresh : SolvedWorld) (phi : Rat → Rat → Rat → Rat)
        (gridFile : List Line) (c : SolvedWorld) (start stop : Int)
        (r : ComputeResult),
        compute importOk fresh phi gridFile (some c) start stop = .ok r →
        r.cache = some c ∧ SolveEvent.freshSolve ∉ r.events) := by
  constructor
  · intro fresh phi gridFile s r h
    cases hread : read_grid_info gridFile with
    | error e =>
        rw [compute] at h
        rw [hread] at h
        exact absurd h (by simp)
    | ok info =>
        rw [compute_read_ok true fresh phi gridFile none s s info hread] at h
        rw [if_pos rfl] at h
        simp [compute_potential, primeStep] at h
        simp [← h]
  · intro importOk fresh phi gridFile c start stop r h
    cases hread : read_grid_info gridFile with
    | error e =>
        rw [compute] at h
        rw [hread] at h
        exact absurd h (by simp)
    | ok info =>
        rw [compute_read_ok importOk fresh phi gridFile (some c) start stop info hread] at h
        by_cases hss : start = stop
        · rw [if_pos hss] at h
          have h2 := compute_potential_cache_some importOk fresh phi c ∅ info none
          simp only [Except.ok.injEq] at h
          constructor
          · rw [← h]; exact h2.1
          · rw [← h]; simpa using h2.2
        · rw [if_neg hss] at h
          simp only [Except.ok.injEq] at h
          have h3 := foldl_samplePass_cache_inv importOk fresh phi info
            (sampleIndices start stop)
            { cache := some c, events := [], outputs := [], passes := [] } c rfl
            (by simp)
          rw [← h]
          exact h3

/-- Claim C6, witness: with an existing cache `some 5`, a sampling run
over two electrode indices leaves the cache untouched and performs no
fresh solve. -/
theorem C6_witness :
    ({ cache := some 5, events := [SolveEvent.cacheLoad, SolveEvent.cacheLoad],
       outputs := [(outfileName 0, fieldLines exInfo phi0),
                   (outfileName 1, fieldLines exInfo phi0)],
       passes := [0, 1] } : ComputeResult).cache = some 5 ∧
    SolveEvent.freshSolve ∉
      ({ cache := some 5, events := [SolveEvent.cacheLoad, SolveEvent.cacheLoad],
         outputs := [(outfileName 0, fieldLines exInfo phi0),
                     (outfileName 1, fieldLines exInfo phi0)],
         passes := [0, 1] } : ComputeResult).events :=
  C6_theorem.2 true 0 phi0 exGridFile 5 0 2 _ (by decide)

/-- Claim C7, counterexample: with the layout import failing, `run(0,2)`
still processes both electrode indices — the failure at index 0 is
swallowed by `compute_potential`'s early `return` and the sampling loop
continues to index 1, contradicting the claim that every failure aborts
the invocation's remaining work. -/
theorem C7_counterexample :
    compute false 0 phi0 exGridFile none 0 2 =
      .ok { cache := none, events := [], outputs := [], passes := [0, 1] } := by
  decide

/-- Claim C7, amended: a layout-import failure is recovered locally:
`compute_potential` returns early (no solve, no voltage setting, no
output for that index) and the sampling loop continues with every
remaining electrode index of `[start, stop)`; output files completed for
earlier indices are left in place (nothing is deleted).  Only an
exception — e.g. `std::out_of_range` from grid parsing — aborts the
whole invocation. -/
theorem C7_theorem (fresh : SolvedWorld) (phi : Rat → Rat → Rat → Rat)
    (gridFile : List Line) (info : grid_info) (cache0 : Option SolvedWorld)
    (start stop : Int) (hread : read_grid_info gridFile = .ok info)
    (hne : start ≠ stop) :
    compute false fresh phi gridFile cache0 start stop =
      .ok { cache := cache0, events := [], outputs := [],
            passes := sampleIndices start stop } := by
  rw [compute_read_ok false fresh phi gridFile cache0 start stop info hread]
  rw [if_neg hne]
  rw [foldl_samplePass_importFail]
  simp

/-- Claim C7, witness: the amended statement at a concrete failing run. -/
theorem C7_witness :
    compute false 0 phi0 exGridFile (some 5) 0 2 =
      .ok { cache := some 5, events := [], outputs := [],
            passes := sampleIndices 0 2 } :=
  C7_theorem 0 phi0 exGridFile exInfo (some 5) 0 2 (by decide) (by decide)

/-- Claim C10: for `start > stop` the sampling branch is taken but the
loop body runs zero times — no solver interaction, no cache change, no
output file; only the grid file is read. -/
theorem C10_theorem (importOk : Bool) (fresh : SolvedWorld)
    (phi : Rat → Rat → Rat → Rat) (gridFile : List Line) (info : grid_info)
    (cache0 : Option SolvedWorld) (start stop : Int)
    (hread : read_grid_info gridFile = .ok info) (hgt : stop < start) :
    compute importOk fresh phi gridFile cache0 start stop =
      .ok { cache := cache0, events := [], outputs := [], passes := [] } := by
  have hne : ¬ (start = stop) := by omega
  have h0 : (stop - start).toNat = 0 := by omega
  rw [compute_read_ok importOk fresh phi gridFile cache0 start stop info hread]
  rw [if_neg hne]
  simp [sampleIndices, h0]

/-- Claim C10, witness: `run(3, 1)` with an existing cache is a no-op. -/
theorem C10_witness :
    compute true 0 phi0 exGridFile (some 7) 3 1 =
      .ok { cache := some 7, events := [], outputs := [], passes := [] } :=
  C10_theorem true 0 phi0 exGridFile exInfo (some 7) 3 1 (by decide) (by decide)

/-! ## Claim C1: the voltage configuration of a sampling pass -/

theorem mem_activationSet {n i j : Int} :
    j ∈ activationSet n i ↔ j = i ∨ (0 < i ∧ j = n + i) := by
  unfold activationSet
  by_cases hi : 0 < i
  · simp [hi, Finset.mem_insert, Finset.mem_singleton]
  · simp [hi, Finset.mem_singleton]

theorem activationSet_ne_empty (n i : Int) : activationSet n i ≠ ∅ := by
  intro h
  have hmem : i ∈ activationSet n i := mem_activationSet.mpr (Or.inl rfl)
  rw [h] at hmem
  exact absurd hmem (Finset.not_mem_empty i)

theorem mem_voltageAssignments_idx {A : Finset Int} {info : grid_info}
    {j : Int} {v : Rat} :
    (Electrode.idx j, v) ∈ voltageAssignments A info ↔
      ∃ k : Nat, k < total_electrodes info ∧ j = (k : Int) ∧
        v = if (k : Int) ∈ A then (1 : Rat) else 0 := by
  unfold voltageAssignments
  rw [List.mem_append]
  constructor
  · rintro (hmap | hg)
    · rw [List.mem_map] at hmap
      obtain ⟨k, hk, heq⟩ := hmap
      rw [List.mem_range] at hk
      exact ⟨k, hk, (Electrode.idx.inj (Prod.mk.inj heq).1).symm,
        (Prod.mk.inj heq).2.symm⟩
    · rw [List.mem_singleton] at hg
      exact absurd (Prod.mk.inj hg).1 (by simp)
  · rintro ⟨k, hk, hkj, hv⟩
    refine Or.inl ?_
    rw [List.mem_map]
    exact ⟨k, List.mem_range.mpr hk, by rw [hkj, hv]⟩

theorem mem_voltageAssignments_ground {A : Finset Int} {info : grid_info}
    {v : Rat} :
    (Electrode.ground, v) ∈ voltageAssignments A info ↔ v = 0 := by
  unfold voltageAssignments
  rw [List.mem_append]
  constructor
  · rintro (hmap | hg)
    · rw [List.mem_map] at hmap
      obtain ⟨k, _, heq⟩ := hmap
      exact absurd (Prod.mk.inj heq).1 (by simp)
    · rw [List.mem_singleton] at hg
      exact (Prod.mk.inj hg).2
  · intro hv
    refine Or.inr ?_
    rw [List.mem_singleton, hv]

/-- Claim C1, counterexample: with `electrodePairCount = 1` the sampling
pass for electrode index `i = 3` builds the activation set `{3, 4}`, but
the voltage loop only runs over indices `0..3`, so the mirror partner
`i + electrodePairCount = 4` is never set to 1.0 volts (it is never
assigned at all), contradicting the claim that for every `i > 0` the
mirror partner is set to 1.0. -/
theorem C1_counterexample :
    ¬ ((Electrode.idx 4, (1 : Rat)) ∈
      (compute_potential true 0 phi0 none (activationSet 1 3) exInfo
        (some (outfileName 3))).assignments) := by decide

/-- Claim C1, amended: for a sampling pass over electrode index `i` with
`0 ≤ i < 2*electrodePairCount+2`, the applied voltage configuration is
the `SetVoltage` list of the loop; within the addressable range an index
`j` is set to 1.0 exactly when `j = i`, or `i > 0` and `j` equals the
mirror partner `electrodePairCount + i` (possible only when
`i < electrodePairCount + 2`); every other addressable index and
`GROUND` are set to 0.0; indices outside `[0, 2*electrodePairCount+2)` —
in particular the mirror partner when `i ≥ electrodePairCount + 2` — are
never assigned.  For `i = 0` the activation set is exactly `{0}`. -/
theorem C1_theorem (fresh : SolvedWorld) (phi : Rat → Rat → Rat → Rat)
    (cache : Option SolvedWorld) (info : grid_info) (i : Int)
    (hi0 : 0 ≤ i) (hi1 : i < 2 * info.num_electrodes + 2) :
    (compute_potential true fresh phi cache (activationSet info.num_electrodes i)
        info (some (outfileName i))).assignments =
      voltageAssignments (activationSet info.num_electrodes i) info ∧
    activationSet info.num_electrodes 0 = {0} ∧
    (∀ (j : Int) (v : Rat), 0 ≤ j → j < 2 * info.num_electrodes + 2 →
      ((Electrode.idx j, v) ∈
          voltageAssignments (activationSet info.num_electrodes i) info ↔
        v = if j = i ∨ (0 < i ∧ j = info.num_electrodes + i) then (1 : Rat) else 0)) ∧
    (∀ v : Rat,
      (Electrode.ground, v) ∈
          voltageAssignments (activationSet info.num_electrodes i) info ↔ v = 0) ∧
    (∀ (j : Int) (v : Rat), j < 0 ∨ 2 * info.num_electrodes + 2 ≤ j →
      (Electrode.idx j, v) ∉
        voltageAssignments (activationSet info.num_electrodes i) info) := by
  refine ⟨?_, ?_, ?_, ?_, ?_⟩
  · simp [compute_potential, if_neg (activationSet_ne_empty info.num_electrodes i)]
  · unfold activationSet
    simp
  · intro j v hj0 hj1
    rw [mem_voltageAssignments_idx]
    constructor
    · rintro ⟨k, hk, hkj, hv⟩
      rw [← hkj] at hv
      rwa [if_congr mem_activationSet rfl rfl] at hv
    · intro hv
      refine ⟨j.toNat, ?_, ?_, ?_⟩
      · unfold total_electrodes
        omega
      · omega
      · have hcast : ((j.toNat : Int)) = j := by omega
        rw [hcast]
        rwa [if_congr mem_activationSet rfl rfl]
  · intro v
    exact mem_voltageAssignments_ground
  · intro j v hj hmem
    rw [mem_voltageAssignments_idx] at hmem
    obtain ⟨k, hk, hkj, hv⟩ := hmem
    unfold total_electrodes at hk
    omega

/-- Claim C1, witness: for the example geometry (`electrodePairCount =
1`) and sampling index `i = 1`, the mirror partner index 2 is set to 1.0
volts. -/
theorem C1_witness :
    (Electrode.idx 2, (1 : Rat)) ∈
      (compute_potential true 0 phi0 none (activationSet 1 1) exInfo
        (some (outfileName 1))).assignments := by
  show (Electrode.idx 2, (1 : Rat)) ∈
    (compute_potential true 0 phi0 none (activationSet exInfo.num_electrodes 1) exInfo
      (some (outfileName 1))).assignments
  have h := C1_theorem 0 phi0 none exInfo 1 (by decide) (by decide)
  rw [h.1]
  exact (h.2.2.1 2 1 (by decide) (by decide)).mpr (by decide)

/-! ## Claim C4: grid iteration order and output size -/

theorem length_flatMap_const {α : Type} (l : List Nat) (f : Nat → List α) (c : Nat)
    (h : ∀ a ∈ l, (f a).length = c) : (l.flatMap f).length = l.length * c := by
  induction l with
  | nil => simp
  | cons a t ih =>
      simp only [List.flatMap_cons, List.length_append, List.length_cons]
      rw [h a (List.mem_cons_self a t), ih fun b hb => h b (List.mem_cons_of_mem _ hb)]
      ring

theorem getElem?_flatMap_range {α : Type} (c : Nat) (f : Nat → List α)
    (hc : ∀ m, (f m).length = c) (n i r : Nat) (hi : i < n) (hr : r < c) :
    ((List.range n).flatMap f)[i * c + r]? = (f i)[r]? := by
  induction n with
  | zero => omega
  | succ m ih =>
      rw [List.range_succ, List.flatMap_append]
      have hlen : ((List.range m).flatMap f).length = m * c := by
        rw [length_flatMap_const _ f c fun a _ => hc a, List.length_range]
      by_cases him : i < m
      · rw [List.getElem?_append_left]
        · exact ih him
        · rw [hlen]
          calc i * c + r < i * c + c := by omega
            _ = (i + 1) * c := by ring
            _ ≤ m * c := Nat.mul_le_mul_right c him
      · have hieq : i = m := by omega
        subst hieq
        rw [List.getElem?_append_right (by rw [hlen]; omega)]
        rw [hlen]
        simp only [List.flatMap_cons, List.flatMap_nil, List.append_nil]
        congr 1
        omega

theorem fieldLines_length (info : grid_info) (phi : Rat → Rat → Rat → Rat) :
    (fieldLines info phi).length =
      info.dimx.toNat * info.dimy.toNat * info.dimz.toNat := by
  unfold fieldLines
  rw [length_flatMap_const _ _ (info.dimy.toNat * info.dimz.toNat)]
  · rw [List.length_range, Nat.mul_assoc]
  · intro a _
    rw [length_flatMap_const _ _ info.dimz.toNat]
    · rw [List.length_range]
    · intro b _
      rw [List.length_map, List.length_range]

theorem fieldLines_getElem (info : grid_info) (phi : Rat → Rat → Rat → Rat)
    (i j k : Nat) (hi : i < info.dimx.toNat) (hj : j < info.dimy.toNat)
    (hk : k < info.dimz.toNat) :
    (fieldLines info phi)[i * info.dimy.toNat * info.dimz.toNat
        + j * info.dimz.toNat + k]? =
      some (phi (info.startx + (i : Rat) * xstepOf info)
                (info.starty + (j : Rat) * ystepOf info)
                (info.startz + (k : Rat) * zstepOf info)) := by
  unfold fieldLines
  have hidx : i * info.dimy.toNat * info.dimz.toNat + j * info.dimz.toNat + k =
      i * (info.dimy.toNat * info.dimz.toNat) + (j * info.dimz.toNat + k) := by
    ring
  rw [hidx]
  rw [getElem?_flatMap_range (info.dimy.toNat * info.dimz.toNat) _
    (fun m => by
      rw [length_flatMap_const _ _ info.dimz.toNat]
      · rw [List.length_range]
      · intro b _
        rw [List.length_map, List.length_range])
    info.dimx.toNat i _ hi
    (by
      calc j * info.dimz.toNat + k < j * info.dimz.toNat + info.dimz.toNat := by omega
        _ = (j + 1) * info.dimz.toNat := by ring
        _ ≤ info.dimy.toNat * info.dimz.toNat := Nat.mul_le_mul_right _ hj)]
  rw [getElem?_flatMap_range info.dimz.toNat _
    (fun m => by rw [List.length_map, List.length_range]) info.dimy.toNat j k hj hk]
  rw [List.getElem?_map, List.getElem?_range hk]
  rfl

/-- Claim C4: with a successful import and a nonempty activation set, a
sampling pass writes its output file with exactly
`dimX*dimY*dimZ` values, the whole grid evaluated with no early
termination, in X-outer / Y-middle / Z-inner order: the line at flat
index `i*dimY*dimZ + j*dimZ + k` is the potential evaluated at
`(startX + i*stepX, startY + j*stepY, startZ + k*stepZ)` with
`step = (end - start) / (dim - 1)` per axis. -/
theorem C4_theorem (fresh : SolvedWorld) (phi : Rat → Rat → Rat → Rat)
    (cache : Option SolvedWorld) (A : Finset Int) (hA : A ≠ ∅)
    (info : grid_info) (f : String)
    (hx : 2 ≤ info.dimx) (hy : 2 ≤ info.dimy) (hz : 2 ≤ info.dimz)
    (i j k : Nat) (hi : i < info.dimx.toNat) (hj : j < info.dimy.toNat)
    (hk : k < info.dimz.toNat) :
    (compute_potential true fresh phi cache A info (some f)).written =
      some (f, fieldLines info phi) ∧
    (fieldLines info phi).length =
      info.dimx.toNat * info.dimy.toNat * info.dimz.toNat ∧
    (fieldLines info phi)[i * info.dimy.toNat * info.dimz.toNat
        + j * info.dimz.toNat + k]? =
      some (phi
        (info.startx + (i : Rat) * ((info.endx - info.startx) / ((info.dimx : Rat) - 1)))
        (info.starty + (j : Rat) * ((info.endy - info.starty) / ((info.dimy : Rat) - 1)))
        (info.startz + (k : Rat) * ((info.endz - info.startz) / ((info.dimz : Rat) - 1)))) := by
  refine ⟨?_, fieldLines_length info phi, ?_⟩
  · cases cache <;> simp [compute_potential, hA, primeStep]
  · rw [fieldLines_getElem info phi i j k hi hj hk]
    rfl

/-- Claim C4, witness: on the 2×2×2 example geometry the last grid point
(flat index 7) is the potential at `(1, 1, 1)`. -/
theorem C4_witness :
    (compute_potential true 0 phi0 (some 5) (activationSet 1 1) exInfo
        (some (outfileName 1))).written =
      some (outfileName 1, fieldLines exInfo phi0) ∧
    (fieldLines exInfo phi0).length =
      exInfo.dimx.toNat * exInfo.dimy.toNat * exInfo.dimz.toNat ∧
    (fieldLines exInfo phi0)[1 * exInfo.dimy.toNat * exInfo.dimz.toNat
        + 1 * exInfo.dimz.toNat + 1]? =
      some (phi0
        (exInfo.startx + ((1 : Nat) : Rat) *
          ((exInfo.endx - exInfo.startx) / ((exInfo.dimx : Rat) - 1)))
        (exInfo.starty + ((1 : Nat) : Rat) *
          ((exInfo.endy - exInfo.starty) / ((exInfo.dimy : Rat) - 1)))
        (exInfo.startz + ((1 : Nat) : Rat) *
          ((exInfo.endz - exInfo.startz) / ((exInfo.dimz : Rat) - 1)))) :=
  C4_theorem 0 phi0 (some 5) (activationSet 1 1) (by decide) exInfo (outfileName 1)
    (by decide) (by decide) (by decide) 1 1 1 (by decide) (by decide) (by decide)

/-! ## Claim C5: positional field order of the loader -/

/-- Claim C5, counterexample: a grid file of exactly ten lines (header
plus nine complete value lines) — which the claim says the loader
consumes in full — does not round-trip: the loader reads an eleventh
line, finds the stream exhausted, and throws `std::out_of_range`. -/
theorem C5_counterexample :
    read_grid_info exGridFile10 = Except.error CppExn.outOfRange := by decide

/-- Claim C5, amended: the loader reads exactly eleven lines — one
discarded header line and ten value lines — and parses the value lines
positionally (never by label lookup) in the exact order electrode count,
dimX, dimY, dimZ, startX, startY, startZ, endX, endY, endZ; for every
well-formed grid file the ten declared field values are reproduced in
the returned `grid_info` exactly, with no reordering and no unit
conversion.  Lines past the eleventh are ignored. -/
theorem C5_theorem (hdr l1 l2 l3 l4 l5 l6 l7 l8 l9 l10 : Line)
    (extra : List Line) (p1 p2 p3 p4 p5 p6 p7 p8 p9 p10 : Line)
    (h1 : cleanValueLine l1 p1) (h2 : cleanValueLine l2 p2)
    (h3 : cleanValueLine l3 p3) (h4 : cleanValueLine l4 p4)
    (h5 : cleanValueLine l5 p5) (h6 : cleanValueLine l6 p6)
    (h7 : cleanValueLine l7 p7) (h8 : cleanValueLine l8 p8)
    (h9 : cleanValueLine l9 p9) (h10 : cleanValueLine l10 p10)
    (ne dx dy dz : Int) (sx sy sz ex0 ey ez : Rat)
    (e1 : extractInt p1 = some ne) (e2 : extractInt p2 = some dx)
    (e3 : extractInt p3 = some dy) (e4 : extractInt p4 = some dz)
    (e5 : extractRat p5 = some sx) (e6 : extractRat p6 = some sy)
    (e7 : extractRat p7 = some sz) (e8 : extractRat p8 = some ex0)
    (e9 : extractRat p9 = some ey) (e10 : extractRat p10 = some ez) :
    read_grid_info
        (hdr :: l1 :: l2 :: l3 :: l4 :: l5 :: l6 :: l7 :: l8 :: l9 :: l10 :: extra) =
      .ok { num_electrodes := ne, dimx := dx, dimy := dy, dimz := dz,
            startx := sx, endx := ex0, starty := sy, endy := ey,
            startz := sz, endz := ez } := by
  have q1 := parse_param_clean extractInt 0
    l1 p1 (l2 :: l3 :: l4 :: l5 :: l6 :: l7 :: l8 :: l9 :: l10 :: extra) h1
  have q2 := parse_param_clean extractInt 0
    l2 p2 (l3 :: l4 :: l5 :: l6 :: l7 :: l8 :: l9 :: l10 :: extra) h2
  have q3 := parse_param_clean extractInt 0
    l3 p3 (l4 :: l5 :: l6 :: l7 :: l8 :: l9 :: l10 :: extra) h3
  have q4 := parse_param_clean extractInt 0
    l4 p4 (l5 :: l6 :: l7 :: l8 :: l9 :: l10 :: extra) h4
  have q5 := parse_param_clean extractRat 0
    l5 p5 (l6 :: l7 :: l8 :: l9 :: l10 :: extra) h5
  have q6 := parse_param_clean extractRat 0
    l6 p6 (l7 :: l8 :: l9 :: l10 :: extra) h6
  have q7 := parse_param_clean extractRat 0 l7 p7 (l8 :: l9 :: l10 :: extra) h7
  have q8 := parse_param_clean extractRat 0 l8 p8 (l9 :: l10 :: extra) h8
  have q9 := parse_param_clean extractRat 0 l9 p9 (l10 :: extra) h9
  have q10 := parse_param_clean extractRat 0 l10 p10 extra h10
  rw [e1] at q1
  rw [e2] at q2
  rw [e3] at q3
  rw [e4] at q4
  rw [e5] at q5
  rw [e6] at q6
  rw [e7] at q7
  rw [e8] at q8
  rw [e9] at q9
  rw [e10] at q10
  simp only [Option.getD_some] at q1 q2 q3 q4 q5 q6 q7 q8 q9 q10
  simp only [read_grid_info, parse_param_int, parse_param_double, List.tail_cons,
    q1, q2, q3, q4, q5, q6, q7, q8, q9, q10, pbind]

/-- Claim C5, witness: the example grid file round-trips each of its ten
declared fields into the matching `grid_info` slot. -/
theorem C5_witness : read_grid_info exGridFile = Except.ok exInfo := by
  show read_grid_info
      ("---".toList :: "num_electrodes: 1".toList :: "dimx: 2".toList ::
        "dimy: 2".toList :: "dimz: 2".toList :: "startx: 0".toList ::
        "starty: 0".toList :: "startz: 0".toList :: "endx: 1".toList ::
        "endy: 1".toList :: "endz: 1".toList :: []) = Except.ok exInfo
  exact C5_theorem "---".toList
    "num_electrodes: 1".toList "dimx: 2".toList "dimy: 2".toList "dimz: 2".toList
    "startx: 0".toList "starty: 0".toList "startz: 0".toList
    "endx: 1".toList "endy: 1".toList "endz: 1".toList []
    " 1".toList " 2".toList " 2".toList " 2".toList " 0".toList " 0".toList
    " 0".toList " 1".toList " 1".toList " 1".toList
    ⟨"num_electrodes".toList, by decide, by decide,
      ⟨'n', "um_electrodes".toList, by decide, by decide⟩,
      ⟨'1', [' '], by decide, by decide⟩⟩
    ⟨"dimx".toList, by decide, by decide,
      ⟨'d', "imx".toList, by decide, by decide⟩,
      ⟨'2', [' '], by decide, by decide⟩⟩
    ⟨"dimy".toList, by decide, by decide,
      ⟨'d', "imy".toList, by decide, by decide⟩,
      ⟨'2', [' '], by decide, by decide⟩⟩
    ⟨"dimz".toList, by decide, by decide,
      ⟨'d', "imz".toList, by decide, by decide⟩,
      ⟨'2', [' '], by decide, by decide⟩⟩
    ⟨"startx".toList, by decide, by decide,
      ⟨'s', "tartx".toList, by decide, by decide⟩,
      ⟨'0', [' '], by decide, by decide⟩⟩
    ⟨"starty".toList, by decide, by decide,
      ⟨'s', "tarty".toList, by decide, by decide⟩,
      ⟨'0', [' '], by decide, by decide⟩⟩
    ⟨"startz".toList, by decide, by decide,
      ⟨'s', "tartz".toList, by decide, by decide⟩,
      ⟨'0', [' '], by decide, by decide⟩⟩
    ⟨"endx".toList, by decide, by decide,
      ⟨'e', "ndx".toList, by decide, by decide⟩,
      ⟨'1', [' '], by decide, by decide⟩⟩
    ⟨"endy".toList, by decide, by decide,
      ⟨'e', "ndy".toList, by decide, by decide⟩,
      ⟨'1', [' '], by decide, by decide⟩⟩
    ⟨"endz".toList, by decide, by decide,
      ⟨'e', "ndz".toList, by decide, by decide⟩,
      ⟨'1', [' '], by decide, by decide⟩⟩
    1 2 2 2 0 0 0 1 1 1
    (by decide) (by decide) (by decide) (by decide) (by decide) (by decide)
    (by decide) (by decide) (by decide) (by decide)

end TrapSim
